import Mathlib

/-!
Shallow embedding of `src/inventory.py` (an in-memory inventory manager for
three product variants, with JSON-file persistence) and proofs about it.

Modelling conventions:
* Python `int` is `Int`, Python `float` (prices) is `ℚ` (JSON round-trips
  numbers exactly, and the code performs no float-specific operation that the
  claims touch).
* The Python `dict` keyed by product id is an insertion-ordered association
  list `List (String × Product)`; `dict` assignment (`d[k] = v`) is
  `dictInsert` (update in place if the key exists, else append), `del d[k]`
  is `dictDel`, `d.get k` / `k in d` is `dictGet`.
* Python exceptions become an explicit error component: a mutating method of
  the source returns the object state after the call together with
  `Option PyError` (the exception raised, if any), matching the observable
  behaviour of in-place mutation plus raise.
* `datetime.now().date()` is an explicit `today : Date` parameter.
* A JSON record read by `load_from_file` / written by `to_dict` is a
  `RawRecord`: one `Option` field per JSON key the code ever touches, `none`
  meaning the key is absent.  Field values are modelled well-typed (every
  file written by `save_to_file` is).
-/

/-- Calendar date as `datetime.date`: year, month, day. -/
structure Date where
  year : Nat
  month : Nat
  day : Nat
deriving DecidableEq, Repr

/-- Gregorian leap-year rule used by `datetime.date`. -/
def isLeapYear (y : Nat) : Bool :=
  y % 4 == 0 && (y % 100 != 0 || y % 400 == 0)

/-- Number of days in a month, as validated by the `datetime.date` constructor. -/
def daysInMonth (y m : Nat) : Nat :=
  if m = 2 then (if isLeapYear y then 29 else 28)
  else if m = 4 ∨ m = 6 ∨ m = 9 ∨ m = 11 then 30
  else 31

/-- The dates representable by `datetime.date`: year 1..9999, valid month and
day-of-month.  Every `Grocery` in a real store satisfies this because the
`Grocery` constructor parses its date through `strptime`. -/
abbrev Date.Valid (d : Date) : Prop :=
  1 ≤ d.year ∧ d.year ≤ 9999 ∧ 1 ≤ d.month ∧ d.month ≤ 12 ∧
    1 ≤ d.day ∧ d.day ≤ daysInMonth d.year d.month

/-- Strict order on dates: `a` is strictly before `b` (Python `a < b` on
`datetime.date`). -/
def Date.ltb (a b : Date) : Bool :=
  a.year < b.year ||
    (a.year == b.year &&
      (a.month < b.month || (a.month == b.month && a.day < b.day)))

/-- ASCII decimal digit test. -/
def isDigit (c : Char) : Bool :=
  48 ≤ c.toNat && c.toNat ≤ 57

/-- Value of an ASCII decimal digit. -/
def digitVal (c : Char) : Nat :=
  c.toNat - 48

/-- ASCII character of a decimal digit. -/
def digitChar (n : Nat) : Char :=
  Char.ofNat (48 + n)

/-- Zero-padded four-digit decimal rendering (`%04d`, for years 0..9999). -/
def pad4 (n : Nat) : List Char :=
  [digitChar (n / 1000 % 10), digitChar (n / 100 % 10),
   digitChar (n / 10 % 10), digitChar (n % 10)]

/-- Zero-padded two-digit decimal rendering (`%02d`, for 0..99). -/
def pad2 (n : Nat) : List Char :=
  [digitChar (n / 10 % 10), digitChar (n % 10)]

/-- `date.isoformat()`: `YYYY-MM-DD`. -/
def Date.isoformat (d : Date) : String :=
  ⟨pad4 d.year ++ '-' :: (pad2 d.month ++ '-' :: pad2 d.day)⟩

/-- Exactly four decimal digits (the `%Y` pattern of `strptime`). -/
def parse4 : List Char → Option Nat
  | [a, b, c, d] =>
    if isDigit a && isDigit b && isDigit c && isDigit d then
      some (1000 * digitVal a + 100 * digitVal b + 10 * digitVal c + digitVal d)
    else none
  | _ => none

/-- One or two decimal digits (the `%m` / `%d` patterns of `strptime`). -/
def parse2 : List Char → Option Nat
  | [a] => if isDigit a then some (digitVal a) else none
  | [a, b] =>
    if isDigit a && isDigit b then some (10 * digitVal a + digitVal b) else none
  | _ => none

/-- Split a character list at every dash. -/
def splitDash : List Char → List (List Char)
  | [] => [[]]
  | c :: cs =>
    if c = '-' then [] :: splitDash cs
    else
      match splitDash cs with
      | g :: gs => (c :: g) :: gs
      | [] => [[c]]

/-- `datetime.strptime(s, "%Y-%m-%d").date()`: a four-digit year, a dash, a
one-or-two-digit month, a dash, a one-or-two-digit day, with the ranges the
`datetime.date` constructor enforces; `none` models the `ValueError` Python
raises on any other input. -/
def Date.strptime (s : String) : Option Date :=
  match splitDash s.data with
  | [ys, ms, ds] =>
    match parse4 ys, parse2 ms, parse2 ds with
    | some y, some m, some d =>
      if 1 ≤ y ∧ 1 ≤ m ∧ m ≤ 12 ∧ 1 ≤ d ∧ d ≤ daysInMonth y m then
        some ⟨y, m, d⟩
      else none
    | _, _, _ => none
  | _ => none

/-- The exceptions the program can raise on the modelled paths: the four
`InventoryError` subclasses of `inventory.py`, plus the builtin `KeyError`
(missing dict key in `from_dict`) and `ValueError` (unparseable date in the
`Grocery` constructor). -/
inductive PyError where
  | duplicateProductID
  | productNotFound
  | insufficientStock
  | invalidProductData
  | keyError (key : String)
  | valueError
deriving DecidableEq, Repr

/-- The `Product` class hierarchy as a closed sum: the shared fields
(`_product_id`, `_name`, `_price`, `_quantity_in_stock`) plus each subclass's
own fields (`Grocery.expiry_date` is stored already parsed, as in the Python
constructor). -/
inductive Product where
  | electronics (product_id name : String) (price : ℚ) (quantity : Int)
      (brand : String) (warranty_years : Int)
  | grocery (product_id name : String) (price : ℚ) (quantity : Int)
      (expiry_date : Date)
  | clothing (product_id name : String) (price : ℚ) (quantity : Int)
      (size material : String)
deriving DecidableEq, Repr

/-- The `_product_id` attribute. -/
def Product.product_id : Product → String
  | .electronics pid _ _ _ _ _ => pid
  | .grocery pid _ _ _ _ => pid
  | .clothing pid _ _ _ _ _ => pid

/-- The `_quantity_in_stock` attribute. -/
def Product.quantity_in_stock : Product → Int
  | .electronics _ _ _ q _ _ => q
  | .grocery _ _ _ q _ => q
  | .clothing _ _ _ q _ _ => q

/-- The `_price` attribute. -/
def Product.price : Product → ℚ
  | .electronics _ _ pr _ _ _ => pr
  | .grocery _ _ pr _ _ => pr
  | .clothing _ _ pr _ _ _ => pr

/-- Assignment to `_quantity_in_stock`, leaving every other field unchanged. -/
def Product.setStock : Product → Int → Product
  | .electronics pid nm pr _ b w, q => .electronics pid nm pr q b w
  | .grocery pid nm pr _ e, q => .grocery pid nm pr q e
  | .clothing pid nm pr _ s m, q => .clothing pid nm pr q s m

/-- `Product.restock`: unconditionally adds `amount` to the stock count. -/
def Product.restock (p : Product) (amount : Int) : Product :=
  p.setStock (p.quantity_in_stock + amount)

/-- `Product.sell`: raises `InsufficientStockError` when `quantity` exceeds the
stock, else subtracts. -/
def Product.sell (p : Product) (quantity : Int) : Product × Option PyError :=
  if quantity > p.quantity_in_stock then (p, some .insufficientStock)
  else (p.setStock (p.quantity_in_stock - quantity), none)

/-- `Product.get_total_value`: `price * stock`. -/
def Product.get_total_value (p : Product) : ℚ :=
  p.price * (p.quantity_in_stock : ℚ)

/-- `isinstance(p, Grocery) and p.is_expired()`: a grocery whose expiry date is
strictly before `today` (`datetime.now().date() > self.expiry_date`). -/
def Product.is_expired_grocery (p : Product) (today : Date) : Bool :=
  match p with
  | .grocery _ _ _ _ e => Date.ltb e today
  | _ => false

/-- Whether the product's stored date (if any) is a representable
`datetime.date`; trivially true for non-groceries. -/
abbrev Product.dateOk : Product → Prop
  | .grocery _ _ _ _ e => e.Valid
  | _ => True

/-- `Product.dateOk` is decidable, so concrete stores can be checked by
evaluation. -/
instance Product.decDateOk : (p : Product) → Decidable p.dateOk
  | .electronics _ _ _ _ _ _ => .isTrue trivial
  | .grocery _ _ _ _ e => inferInstanceAs (Decidable e.Valid)
  | .clothing _ _ _ _ _ _ => .isTrue trivial

/-- A parsed JSON object as the code reads it: one optional slot per key the
code accesses, `none` = key absent. -/
structure RawRecord where
  type : Option String
  product_id : Option String
  name : Option String
  price : Option ℚ
  quantity : Option Int
  brand : Option String
  warranty_years : Option Int
  expiry_date : Option String
  size : Option String
  material : Option String
deriving DecidableEq, Repr

/-- `data["k"]`: the value if present, `KeyError` if absent. -/
def getField {α : Type} (x : Option α) (key : String) : Except PyError α :=
  match x with
  | some v => .ok v
  | none => .error (.keyError key)

/-- `Electronics.to_dict`. -/
def Electronics.to_dict (pid nm : String) (pr : ℚ) (q : Int) (b : String)
    (w : Int) : RawRecord :=
  ⟨some "Electronics", some pid, some nm, some pr, some q, some b, some w,
    none, none, none⟩

/-- `Grocery.to_dict` (the expiry date is written with `isoformat`). -/
def Grocery.to_dict (pid nm : String) (pr : ℚ) (q : Int) (e : Date) :
    RawRecord :=
  ⟨some "Grocery", some pid, some nm, some pr, some q, none, none,
    some e.isoformat, none, none⟩

/-- `Clothing.to_dict`. -/
def Clothing.to_dict (pid nm : String) (pr : ℚ) (q : Int) (s m : String) :
    RawRecord :=
  ⟨some "Clothing", some pid, some nm, some pr, some q, none, none, none,
    some s, some m⟩

/-- `p.to_dict()`, dispatched over the variants. -/
def Product.to_dict : Product → RawRecord
  | .electronics pid nm pr q b w => Electronics.to_dict pid nm pr q b w
  | .grocery pid nm pr q e => Grocery.to_dict pid nm pr q e
  | .clothing pid nm pr q s m => Clothing.to_dict pid nm pr q s m

/-- `Electronics.from_dict`: reads the fields in source order; a missing key
raises `KeyError`, nothing else can fail. -/
def Electronics.from_dict (data : RawRecord) : Except PyError Product := do
  let pid ← getField data.product_id "product_id"
  let nm ← getField data.name "name"
  let pr ← getField data.price "price"
  let q ← getField data.quantity "quantity"
  let b ← getField data.brand "brand"
  let w ← getField data.warranty_years "warranty_years"
  pure (.electronics pid nm pr q b w)

/-- `Grocery.from_dict`: reads the fields, then the `Grocery` constructor
parses the expiry string with `strptime`; an unparseable date raises
`ValueError`. -/
def Grocery.from_dict (data : RawRecord) : Except PyError Product := do
  let pid ← getField data.product_id "product_id"
  let nm ← getField data.name "name"
  let pr ← getField data.price "price"
  let q ← getField data.quantity "quantity"
  let es ← getField data.expiry_date "expiry_date"
  match Date.strptime es with
  | some e => pure (.grocery pid nm pr q e)
  | none => .error .valueError

/-- `Clothing.from_dict`. -/
def Clothing.from_dict (data : RawRecord) : Except PyError Product := do
  let pid ← getField data.product_id "product_id"
  let nm ← getField data.name "name"
  let pr ← getField data.price "price"
  let q ← getField data.quantity "quantity"
  let s ← getField data.size "size"
  let m ← getField data.material "material"
  pure (.clothing pid nm pr q s m)

/-- The `product_map` dict of `load_from_file`: discriminator to
deserializer; `none` for an absent or unrecognized discriminator. -/
def product_map (ptype : Option String) :
    Option (RawRecord → Except PyError Product) :=
  match ptype with
  | some "Electronics" => some Electronics.from_dict
  | some "Grocery" => some Grocery.from_dict
  | some "Clothing" => some Clothing.from_dict
  | _ => none

/-- One iteration of the `load_from_file` loop body: look up the
discriminator, raise `InvalidProductDataError` if unrecognized, else
deserialize. -/
def parse_record (item : RawRecord) : Except PyError Product :=
  match product_map item.type with
  | none => .error .invalidProductData
  | some cls => cls item

/-- `d.get k` on the association-list model of a Python dict. -/
def dictGet : List (String × Product) → String → Option Product
  | [], _ => none
  | kp :: rest, k => if kp.1 = k then some kp.2 else dictGet rest k

/-- `d[k] = v`: update in place if the key exists (keeping its position),
else append — Python dict insertion-order semantics. -/
def dictInsert : List (String × Product) → String → Product →
    List (String × Product)
  | [], k, v => [(k, v)]
  | kp :: rest, k, v =>
    if kp.1 = k then (k, v) :: rest else kp :: dictInsert rest k v

/-- `del d[k]`: remove the entry with key `k` (keys are unique in a dict, so
removing the first occurrence is exact). -/
def dictDel : List (String × Product) → String → List (String × Product)
  | [], _ => []
  | kp :: rest, k => if kp.1 = k then rest else kp :: dictDel rest k

/-- The `Inventory` class: its `_products` dict. -/
structure Inventory where
  products : List (String × Product)
deriving DecidableEq, Repr

/-- `Inventory.add_product`: `DuplicateProductIDError` if the id is already a
key, else insert keyed by the product's own id. -/
def Inventory.add_product (inv : Inventory) (p : Product) :
    Inventory × Option PyError :=
  if (dictGet inv.products p.product_id).isSome then
    (inv, some .duplicateProductID)
  else
    (⟨dictInsert inv.products p.product_id p⟩, none)

/-- `Inventory.remove_product`: `ProductNotFoundError` if the id is absent,
else delete. -/
def Inventory.remove_product (inv : Inventory) (pid : String) :
    Inventory × Option PyError :=
  if (dictGet inv.products pid).isSome = false then
    (inv, some .productNotFound)
  else
    (⟨dictDel inv.products pid⟩, none)

/-- `Inventory.sell_product`: look up, `ProductNotFoundError` if absent, else
delegate to `Product.sell` (which mutates the stored product in place only on
success, so on failure the dict is unchanged). -/
def Inventory.sell_product (inv : Inventory) (pid : String) (quantity : Int) :
    Inventory × Option PyError :=
  match dictGet inv.products pid with
  | none => (inv, some .productNotFound)
  | some p =>
    match p.sell quantity with
    | (p2, none) => (⟨dictInsert inv.products pid p2⟩, none)
    | (_, some e) => (inv, some e)

/-- `Inventory.restock_product`: look up, `ProductNotFoundError` if absent,
else delegate to `Product.restock` (in-place mutation of the stored product).
-/
def Inventory.restock_product (inv : Inventory) (pid : String)
    (quantity : Int) : Inventory × Option PyError :=
  match dictGet inv.products pid with
  | none => (inv, some .productNotFound)
  | some p => (⟨dictInsert inv.products pid (p.restock quantity)⟩, none)

/-- `Inventory.remove_expired_products`: collect the ids of expired groceries
first, then delete them one by one. -/
def Inventory.remove_expired_products (inv : Inventory) (today : Date) :
    Inventory :=
  let expired_ids :=
    (inv.products.filter (fun kp => kp.2.is_expired_grocery today)).map (·.1)
  ⟨List.foldl dictDel inv.products expired_ids⟩

/-- `Inventory.save_to_file`: the list of records written to the file, one
`to_dict` per product in store order. -/
def Inventory.save_to_file (inv : Inventory) : List RawRecord :=
  inv.products.map (fun kp => kp.2.to_dict)

/-- The `for item in data` loop of `load_from_file`: parse each record and
assign it into the dict keyed by its own id (plain dict assignment — a
repeated id silently overwrites); on the first failure the exception
propagates and the dict keeps the entries inserted so far. -/
def Inventory.load_loop :
    List (String × Product) → List RawRecord →
      List (String × Product) × Option PyError
  | acc, [] => (acc, none)
  | acc, item :: rest =>
    match parse_record item with
    | .error e => (acc, some e)
    | .ok p => Inventory.load_loop (dictInsert acc p.product_id p) rest

/-- `Inventory.load_from_file` after the JSON has been read: clear the dict,
then run the loop. -/
def Inventory.load_from_file (_inv : Inventory) (data : List RawRecord) :
    Inventory × Option PyError :=
  let r := Inventory.load_loop [] data
  (⟨r.1⟩, r.2)

/-- The dict invariant: every key equals its product's own id, and keys are
unique. -/
abbrev Inventory.Wf (inv : Inventory) : Prop :=
  (∀ kp ∈ inv.products, kp.1 = kp.2.product_id) ∧
    (inv.products.map Prod.fst).Nodup

/-- Every grocery in the store carries a representable date (guaranteed in
the source by the parsing `Grocery` constructor). -/
abbrev Inventory.ValidDates (inv : Inventory) : Prop :=
  ∀ kp ∈ inv.products, kp.2.dateOk

/-- A sample electronics product (the §8 scenario of the spec). -/
def sampleElectronics : Product :=
  .electronics "E1" "Laptop" 100 5 "Acme" 2

/-- A sample grocery product with a representable expiry date. -/
def sampleGrocery : Product :=
  .grocery "G1" "Milk" (3 / 2 : ℚ) 10 ⟨2024, 3, 15⟩

/-- A sample clothing product. -/
def sampleClothing : Product :=
  .clothing "C1" "Shirt" 20 7 "M" "Cotton"

/-- A store holding one product of each variant. -/
def sampleInventory : Inventory :=
  ⟨[("E1", sampleElectronics), ("G1", sampleGrocery), ("C1", sampleClothing)]⟩

/-- A record with the unrecognized discriminator of the §8 scenario. -/
def furnitureRecord : RawRecord :=
  ⟨some "Furniture", some "F1", some "Chair", some 30, some 2, none, none,
    none, none, none⟩

/-- A grocery record whose expiry date does not parse. -/
def badDateRecord : RawRecord :=
  ⟨some "Grocery", some "G2", some "Eggs", some 2, some 12, none, none,
    some "not-a-date", none, none⟩

/-- An electronics record with the `brand` key missing. -/
def missingFieldRecord : RawRecord :=
  ⟨some "Electronics", some "E2", some "TV", some 50, some 1, none, some 1,
    none, none, none⟩

/-! ### Digit and date-format lemmas -/

lemma isDigit_digitChar (n : Nat) (h : n < 10) : isDigit (digitChar n) = true := by
  interval_cases n <;> decide

lemma digitVal_digitChar (n : Nat) (h : n < 10) : digitVal (digitChar n) = n := by
  interval_cases n <;> decide

lemma digitChar_ne_dash (n : Nat) (h : n < 10) : digitChar n ≠ '-' := by
  interval_cases n <;> decide

lemma dash_not_mem_pad4 (n : Nat) : '-' ∉ pad4 n := by
  simp only [pad4, List.mem_cons, List.not_mem_nil, or_false]
  push_neg
  refine ⟨?_, ?_, ?_, ?_⟩ <;>
    exact fun h => digitChar_ne_dash _ (Nat.mod_lt _ (by omega)) h.symm

lemma dash_not_mem_pad2 (n : Nat) : '-' ∉ pad2 n := by
  simp only [pad2, List.mem_cons, List.not_mem_nil, or_false]
  push_neg
  refine ⟨?_, ?_⟩ <;>
    exact fun h => digitChar_ne_dash _ (Nat.mod_lt _ (by omega)) h.symm

lemma splitDash_no_dash (xs : List Char) (h : '-' ∉ xs) : splitDash xs = [xs] := by
  induction xs with
  | nil => rfl
  | cons c cs ih =>
    simp only [List.mem_cons, not_or] at h
    rw [splitDash, if_neg (fun hc => h.1 hc.symm), ih h.2]

lemma splitDash_append (xs rest : List Char) (h : '-' ∉ xs) :
    splitDash (xs ++ '-' :: rest) = xs :: splitDash rest := by
  induction xs with
  | nil =>
    simp [splitDash]
  | cons c cs ih =>
    simp only [List.mem_cons, not_or] at h
    rw [List.cons_append, splitDash, if_neg (fun hc => h.1 hc.symm), ih h.2]

lemma parse4_pad4 (n : Nat) (h : n ≤ 9999) : parse4 (pad4 n) = some n := by
  simp only [pad4, parse4,
    isDigit_digitChar _ (Nat.mod_lt _ (by omega)),
    digitVal_digitChar _ (Nat.mod_lt _ (by omega)),
    Bool.and_self, if_true]
  congr 1
  omega

lemma parse2_pad2 (n : Nat) (h : n ≤ 99) : parse2 (pad2 n) = some n := by
  simp only [pad2, parse2,
    isDigit_digitChar _ (Nat.mod_lt _ (by omega)),
    digitVal_digitChar _ (Nat.mod_lt _ (by omega)),
    Bool.and_self, if_true]
  congr 1
  omega

lemma daysInMonth_le_31 (y m : Nat) : daysInMonth y m ≤ 31 := by
  unfold daysInMonth
  split
  · split <;> omega
  · split <;> omega

/-- Formatting a representable date with `isoformat` and parsing it back with
`strptime` recovers the date exactly. -/
lemma strptime_isoformat (d : Date) (h : d.Valid) :
    Date.strptime d.isoformat = some d := by
  obtain ⟨h1, h2, h3, h4, h5, h6⟩ := h
  have hday : d.day ≤ 99 := le_trans h6 (le_trans (daysInMonth_le_31 _ _) (by omega))
  show Date.strptime ⟨pad4 d.year ++ '-' :: (pad2 d.month ++ '-' :: pad2 d.day)⟩ = some d
  unfold Date.strptime
  show (match splitDash (pad4 d.year ++ '-' :: (pad2 d.month ++ '-' :: pad2 d.day)) with
    | _ => _ : Option Date) = _
  rw [splitDash_append _ _ (dash_not_mem_pad4 _),
    splitDash_append _ _ (dash_not_mem_pad2 _),
    splitDash_no_dash _ (dash_not_mem_pad2 _)]
  simp only [parse4_pad4 _ h2, parse2_pad2 _ (by omega : d.month ≤ 99),
    parse2_pad2 _ hday]
  rw [if_pos ⟨h1, h3, h4, h5, h6⟩]

/-! ### Dictionary lemmas -/

lemma dictGet_eq_none_iff (ps : List (String × Product)) (k : String) :
    dictGet ps k = none ↔ k ∉ ps.map Prod.fst := by
  induction ps with
  | nil => simp [dictGet]
  | cons kp rest ih =>
    by_cases h : kp.1 = k
    · simp [dictGet, h]
    · simp only [dictGet, if_neg h, List.map_cons, List.mem_cons, ih]
      constructor
      · rintro hk (rfl | hm)
        · exact h rfl
        · exact hk hm
      · intro hk hm
        exact hk (Or.inr hm)

lemma dictGet_dictInsert_self (ps : List (String × Product)) (k : String)
    (v : Product) : dictGet (dictInsert ps k v) k = some v := by
  induction ps with
  | nil => simp [dictInsert, dictGet]
  | cons kp rest ih =>
    by_cases h : kp.1 = k
    · simp [dictInsert, dictGet, h]
    · simp [dictInsert, dictGet, h, ih]

lemma dictInsert_fresh (ps : List (String × Product)) (k : String)
    (v : Product) (h : k ∉ ps.map Prod.fst) :
    dictInsert ps k v = ps ++ [(k, v)] := by
  induction ps with
  | nil => rfl
  | cons kp rest ih =>
    simp only [List.map_cons, List.mem_cons, not_or] at h
    rw [dictInsert, if_neg (fun hk => h.1 hk.symm), ih h.2, List.cons_append]

lemma dictInsert_mem (ps : List (String × Product)) (k : String) (v : Product)
    (kp : String × Product) (h : kp ∈ dictInsert ps k v) :
    kp ∈ ps ∨ kp = (k, v) := by
  induction ps with
  | nil => simpa [dictInsert] using h
  | cons hd rest ih =>
    by_cases hk : hd.1 = k
    · rw [dictInsert, if_pos hk] at h
      rcases List.mem_cons.mp h with h1 | h1
      · exact Or.inr h1
      · exact Or.inl (List.mem_cons_of_mem _ h1)
    · rw [dictInsert, if_neg hk] at h
      rcases List.mem_cons.mp h with h1 | h1
      · exact Or.inl (h1 ▸ List.mem_cons_self _ _)
      · rcases ih h1 with h2 | h2
        · exact Or.inl (List.mem_cons_of_mem _ h2)
        · exact Or.inr h2

lemma dictInsert_keys (ps : List (String × Product)) (k : String)
    (v : Product) :
    (dictInsert ps k v).map Prod.fst =
      if k ∈ ps.map Prod.fst then ps.map Prod.fst
      else ps.map Prod.fst ++ [k] := by
  induction ps with
  | nil => simp [dictInsert]
  | cons kp rest ih =>
    by_cases h : kp.1 = k
    · simp [dictInsert, h]
    · have hne : ¬k = kp.1 := fun hk => h hk.symm
      simp only [dictInsert, if_neg h, List.map_cons, List.mem_cons, ih]
      by_cases hm : k ∈ rest.map Prod.fst
      · simp [hm, hne]
      · simp [hm, hne]

lemma dictInsert_length (ps : List (String × Product)) (k : String)
    (v : Product) :
    (dictInsert ps k v).length =
      if k ∈ ps.map Prod.fst then ps.length else ps.length + 1 := by
  have := congrArg List.length (dictInsert_keys ps k v)
  simp only [List.length_map] at this
  rw [this]
  split <;> simp

lemma dictDel_sublist (ps : List (String × Product)) (k : String) :
    (dictDel ps k).Sublist ps := by
  induction ps with
  | nil => simp [dictDel]
  | cons kp rest ih =>
    by_cases h : kp.1 = k
    · rw [dictDel, if_pos h]
      exact (List.sublist_cons_self kp rest)
    · rw [dictDel, if_neg h]
      exact List.Sublist.cons₂ kp ih

lemma dictDel_eq_filter (ps : List (String × Product)) (k : String)
    (hnd : (ps.map Prod.fst).Nodup) :
    dictDel ps k = ps.filter (fun kp => kp.1 ≠ k) := by
  induction ps with
  | nil => rfl
  | cons kp rest ih =>
    simp only [List.map_cons, List.nodup_cons] at hnd
    by_cases h : kp.1 = k
    · rw [dictDel, if_pos h, List.filter_cons_of_neg (by simp [h])]
      have : rest.filter (fun kp => kp.1 ≠ k) = rest := by
        apply List.filter_eq_self.mpr
        intro a ha
        simp only [ne_eq, decide_eq_true_eq]
        intro hk
        exact hnd.1 (h ▸ hk ▸ List.mem_map_of_mem Prod.fst ha)
      rw [this]
    · rw [dictDel, if_neg h, List.filter_cons_of_pos (by simp [h]), ih hnd.2]

lemma filter_keys_nodup (ps : List (String × Product))
    (hnd : (ps.map Prod.fst).Nodup) (q : String × Product → Bool) :
    ((ps.filter q).map Prod.fst).Nodup :=
  ((ps.filter_sublist).map Prod.fst).nodup hnd

lemma foldl_dictDel_filter (ids : List String) (ps : List (String × Product))
    (hnd : (ps.map Prod.fst).Nodup) :
    List.foldl dictDel ps ids = ps.filter (fun kp => !ids.contains kp.1) := by
  induction ids generalizing ps with
  | nil => simp
  | cons i rest ih =>
    rw [List.foldl_cons, dictDel_eq_filter ps i hnd,
      ih _ (filter_keys_nodup ps hnd _), List.filter_filter]
    apply List.filter_congr
    intro kp _
    simp only [List.contains_cons, Bool.not_or, Bool.and_comm]
    congr 1
    simp [Ne, eq_comm, beq_eq_decide]

lemma key_unique (ps : List (String × Product))
    (hnd : (ps.map Prod.fst).Nodup) (kp kq : String × Product)
    (h1 : kp ∈ ps) (h2 : kq ∈ ps) (hk : kp.1 = kq.1) : kp = kq :=
  List.inj_on_of_nodup_map hnd h1 h2 hk

/-! ### Product field lemmas -/

@[simp] lemma Product.quantity_in_stock_setStock (p : Product) (v : Int) :
    (p.setStock v).quantity_in_stock = v := by
  cases p <;> rfl

@[simp] lemma Product.product_id_setStock (p : Product) (v : Int) :
    (p.setStock v).product_id = p.product_id := by
  cases p <;> rfl

lemma Product.setStock_setStock (p : Product) (a b : Int) :
    (p.setStock a).setStock b = p.setStock b := by
  cases p <;> rfl

lemma Product.setStock_self (p : Product) :
    p.setStock p.quantity_in_stock = p := by
  cases p <;> rfl

@[simp] lemma Product.product_id_restock (p : Product) (a : Int) :
    (p.restock a).product_id = p.product_id := by
  cases p <;> rfl

/-! ### Round-trip and load-loop lemmas -/

/-- Serializing any product with a representable date and deserializing the
record recovers the product exactly. -/
lemma parse_record_to_dict (p : Product) (h : p.dateOk) :
    parse_record p.to_dict = .ok p := by
  cases p with
  | electronics pid nm pr q b w => rfl
  | clothing pid nm pr q s m => rfl
  | grocery pid nm pr q e =>
    simp only [Product.to_dict, parse_record, Grocery.to_dict, product_map,
      Grocery.from_dict, getField, bind, Except.bind, pure, Except.pure,
      strptime_isoformat e h]

lemma load_loop_map_to_dict (ps : List (String × Product))
    (acc : List (String × Product)) (hok : ∀ kp ∈ ps, kp.2.dateOk) :
    Inventory.load_loop acc (ps.map (fun kp => kp.2.to_dict)) =
      (ps.foldl (fun a kp => dictInsert a kp.2.product_id kp.2) acc, none) := by
  induction ps generalizing acc with
  | nil => rfl
  | cons kp rest ih =>
    rw [List.map_cons, Inventory.load_loop,
      parse_record_to_dict kp.2 (hok kp (List.mem_cons_self _ _)), List.foldl_cons]
    exact ih _ (fun kq hq => hok kq (List.mem_cons_of_mem _ hq))

lemma foldl_dictInsert_append (ps acc : List (String × Product))
    (hkeys : ∀ kp ∈ ps, kp.1 = kp.2.product_id)
    (hnd : (acc.map Prod.fst ++ ps.map Prod.fst).Nodup) :
    ps.foldl (fun a kp => dictInsert a kp.2.product_id kp.2) acc = acc ++ ps := by
  induction ps generalizing acc with
  | nil => simp
  | cons kp rest ih =>
    have hk : kp.2.product_id = kp.1 :=
      (hkeys kp (List.mem_cons_self _ _)).symm
    have hfresh : kp.1 ∉ acc.map Prod.fst := by
      simp only [List.map_cons, List.nodup_append, List.nodup_cons,
        List.disjoint_cons_right] at hnd
      exact fun hm => hnd.2.2.1 hm
    rw [List.foldl_cons, hk, dictInsert_fresh _ _ _ hfresh,
      ih (acc ++ [(kp.1, kp.2)])
        (fun kq hq => hkeys kq (List.mem_cons_of_mem _ hq))
        (by simpa using hnd),
      List.append_assoc, List.singleton_append]

lemma load_loop_append (acc : List (String × Product)) (xs ys : List RawRecord)
    (h : ∀ r ∈ xs, ∃ p, parse_record r = .ok p) :
    Inventory.load_loop acc (xs ++ ys) =
      Inventory.load_loop (Inventory.load_loop acc xs).1 ys := by
  induction xs generalizing acc with
  | nil => rfl
  | cons r rs ih =>
    obtain ⟨p, hp⟩ := h r (List.mem_cons_self _ _)
    rw [List.cons_append, Inventory.load_loop, hp, Inventory.load_loop, hp]
    exact ih _ (fun r2 h2 => h r2 (List.mem_cons_of_mem _ h2))

lemma load_loop_length (rs : List RawRecord) (acc : List (String × Product)) :
    (Inventory.load_loop acc rs).1.length ≤ acc.length + rs.length := by
  induction rs generalizing acc with
  | nil => simp [Inventory.load_loop]
  | cons r rest ih =>
    rw [Inventory.load_loop]
    cases hp : parse_record r with
    | error e => simp
    | ok p =>
      calc (Inventory.load_loop (dictInsert acc p.product_id p) rest).1.length
          ≤ (dictInsert acc p.product_id p).length + rest.length := ih _
        _ ≤ acc.length + (r :: rest).length := by
            rw [dictInsert_length]
            split <;> (simp only [List.length_cons]; omega)

lemma mem_keys_of_dictGet_ne_none (ps : List (String × Product)) (k : String)
    (h : dictGet ps k ≠ none) : k ∈ ps.map Prod.fst := by
  by_contra hm
  exact h ((dictGet_eq_none_iff ps k).mpr hm)

lemma load_loop_wf (data : List RawRecord) (acc : List (String × Product))
    (h1 : ∀ kp ∈ acc, kp.1 = kp.2.product_id)
    (h2 : (acc.map Prod.fst).Nodup) :
    (∀ kp ∈ (Inventory.load_loop acc data).1, kp.1 = kp.2.product_id) ∧
      ((Inventory.load_loop acc data).1.map Prod.fst).Nodup := by
  induction data generalizing acc with
  | nil => exact ⟨h1, h2⟩
  | cons r rest ih =>
    rw [Inventory.load_loop]
    cases hp : parse_record r with
    | error e => exact ⟨h1, h2⟩
    | ok p =>
      apply ih
      · intro kp hkp
        rcases dictInsert_mem _ _ _ _ hkp with hm | hm
        · exact h1 kp hm
        · rw [hm]
      · rw [dictInsert_keys]
        split
        · exact h2
        · next hm =>
          simp only [List.nodup_append, List.nodup_cons, List.not_mem_nil,
            not_false_iff, List.nodup_nil, List.disjoint_singleton]
          exact ⟨h2, ⟨trivial, trivial⟩, hm⟩

lemma dictGet_mem (ps : List (String × Product)) (k : String) (v : Product)
    (h : dictGet ps k = some v) : (k, v) ∈ ps := by
  induction ps with
  | nil => simp [dictGet] at h
  | cons kp rest ih =>
    by_cases hk : kp.1 = k
    · rw [dictGet, if_pos hk] at h
      have : kp = (k, v) := by
        rcases kp with ⟨k1, v1⟩
        simp only at hk
        simp only [Option.some.injEq] at h
        rw [hk, h]
      exact this ▸ List.mem_cons_self _ _
    · rw [dictGet, if_neg hk] at h
      exact List.mem_cons_of_mem _ (ih h)

lemma wf_dictInsert (ps : List (String × Product)) (k : String) (v : Product)
    (h1 : ∀ kp ∈ ps, kp.1 = kp.2.product_id) (h2 : (ps.map Prod.fst).Nodup)
    (hk : k = v.product_id) :
    (∀ kp ∈ dictInsert ps k v, kp.1 = kp.2.product_id) ∧
      ((dictInsert ps k v).map Prod.fst).Nodup := by
  constructor
  · intro kp hkp
    rcases dictInsert_mem _ _ _ _ hkp with hm | hm
    · exact h1 kp hm
    · rw [hm]
      exact hk
  · rw [dictInsert_keys]
    split
    · exact h2
    · next hm =>
      simp only [List.nodup_append, List.nodup_cons, List.not_mem_nil,
        not_false_iff, List.nodup_nil, List.disjoint_singleton]
      exact ⟨h2, ⟨trivial, trivial⟩, hm⟩

lemma wf_of_sublist (ps qs : List (String × Product)) (hs : qs.Sublist ps)
    (h1 : ∀ kp ∈ ps, kp.1 = kp.2.product_id) (h2 : (ps.map Prod.fst).Nodup) :
    (∀ kp ∈ qs, kp.1 = kp.2.product_id) ∧ (qs.map Prod.fst).Nodup :=
  ⟨fun kp hkp => h1 kp (hs.subset hkp), (hs.map Prod.fst).nodup h2⟩

lemma foldl_dictDel_sublist (ids : List String)
    (ps : List (String × Product)) :
    (List.foldl dictDel ps ids).Sublist ps := by
  induction ids generalizing ps with
  | nil => exact List.Sublist.refl ps
  | cons i rest ih => exact (ih _).trans (dictDel_sublist ps i)

lemma electronics_from_dict_errors (data : RawRecord) (e : PyError)
    (h : Electronics.from_dict data = .error e) : ∃ k, e = .keyError k := by
  rcases data with ⟨t, pid, nm, pr, q, b, w, ed, s, m⟩
  rcases pid with _ | pid <;> rcases nm with _ | nm <;> rcases pr with _ | pr <;>
    rcases q with _ | q <;> rcases b with _ | b <;> rcases w with _ | w <;>
    simp_all [Electronics.from_dict, getField, bind, Except.bind, pure,
      Except.pure] <;>
    exact ⟨_, h.symm⟩

lemma clothing_from_dict_errors (data : RawRecord) (e : PyError)
    (h : Clothing.from_dict data = .error e) : ∃ k, e = .keyError k := by
  rcases data with ⟨t, pid, nm, pr, q, b, w, ed, s, m⟩
  rcases pid with _ | pid <;> rcases nm with _ | nm <;> rcases pr with _ | pr <;>
    rcases q with _ | q <;> rcases s with _ | s <;> rcases m with _ | m <;>
    simp_all [Clothing.from_dict, getField, bind, Except.bind, pure,
      Except.pure] <;>
    exact ⟨_, h.symm⟩

lemma grocery_from_dict_errors (data : RawRecord) (e : PyError)
    (h : Grocery.from_dict data = .error e) :
    (∃ k, e = .keyError k) ∨ e = .valueError := by
  rcases data with ⟨t, pid, nm, pr, q, b, w, ed, s, m⟩
  rcases pid with _ | pid <;> rcases nm with _ | nm <;> rcases pr with _ | pr <;>
    rcases q with _ | q <;> rcases ed with _ | ed <;>
    simp_all [Grocery.from_dict, getField, bind, Except.bind, pure,
      Except.pure] <;>
    first
      | exact Or.inl ⟨_, h.symm⟩
      | (cases hds : Date.strptime ed <;> simp_all)

/-- C1: `sell(quantity)` fails with `InsufficientStock` whenever
`quantity > stock` and leaves the stock (indeed the whole product) unchanged
on that failure; a successful sell subtracts exactly `quantity` and never
drives the stock count negative. -/
theorem claim_c1_sell_guard (p : Product) (quantity : Int) :
    (quantity > p.quantity_in_stock →
      p.sell quantity = (p, some PyError.insufficientStock)) ∧
    ((p.sell quantity).2 = none →
      (p.sell quantity).1.quantity_in_stock =
          p.quantity_in_stock - quantity ∧
        0 ≤ (p.sell quantity).1.quantity_in_stock) := by
  constructor
  · intro h
    rw [Product.sell, if_pos h]
  · intro h
    by_cases hgt : quantity > p.quantity_in_stock
    · rw [Product.sell, if_pos hgt] at h
      simp at h
    · rw [Product.sell, if_neg hgt]
      refine ⟨by simp, ?_⟩
      simp only [Product.quantity_in_stock_setStock]
      omega

/-- C1 witness: at the §8 scenario product, selling 10 of a stock of 5 fails
with `InsufficientStock` and leaves the product unchanged. -/
theorem claim_c1_sell_guard_witness :
    Product.sell sampleElectronics 10 =
      (sampleElectronics, some PyError.insufficientStock) :=
  (claim_c1_sell_guard sampleElectronics 10).1 (by decide)

/-- C5: if `sell(q)` succeeds, `restock(q)` immediately afterwards restores
the product exactly, in particular its original stock count. -/
theorem claim_c5_sell_restock (p : Product) (q : Int)
    (h : (p.sell q).2 = none) : (p.sell q).1.restock q = p := by
  by_cases hgt : q > p.quantity_in_stock
  · rw [Product.sell, if_pos hgt] at h
    simp at h
  · rw [Product.sell, if_neg hgt, Product.restock]
    simp only [Product.quantity_in_stock_setStock, Product.setStock_setStock]
    rw [Int.sub_add_cancel]
    exact p.setStock_self

/-- C5 witness: selling 3 of the sample stock of 5 then restocking 3 restores
the product. -/
theorem claim_c5_sell_restock_witness :
    (Product.sell sampleElectronics 3).1.restock 3 = sampleElectronics :=
  claim_c5_sell_restock sampleElectronics 3 (by decide)

/-- C6: `add_product` with an id already present fails with
`DuplicateProductID` and returns the store unchanged. -/
theorem claim_c6_add_duplicate (inv : Inventory) (p : Product)
    (h : (dictGet inv.products p.product_id).isSome) :
    inv.add_product p = (inv, some PyError.duplicateProductID) := by
  rw [Inventory.add_product, if_pos h]

/-- C6 witness: adding a second product with id `"E1"` to the sample store
fails with `DuplicateProductID` and leaves the store unchanged. -/
theorem claim_c6_add_duplicate_witness :
    Inventory.add_product sampleInventory
        (Product.clothing "E1" "Scarf" 5 1 "S" "Wool") =
      (sampleInventory, some PyError.duplicateProductID) :=
  claim_c6_add_duplicate sampleInventory
    (Product.clothing "E1" "Scarf" 5 1 "S" "Wool") (by decide)

/-- C7: `remove_product`, `sell_product` and `restock_product` on an id absent
from the store each fail with `ProductNotFound` and return the store
unchanged. -/
theorem claim_c7_absent_id (inv : Inventory) (pid : String) (q : Int)
    (h : dictGet inv.products pid = none) :
    inv.remove_product pid = (inv, some PyError.productNotFound) ∧
      inv.sell_product pid q = (inv, some PyError.productNotFound) ∧
      inv.restock_product pid q = (inv, some PyError.productNotFound) := by
  refine ⟨?_, ?_, ?_⟩
  · rw [Inventory.remove_product, if_pos (by rw [h]; rfl)]
  · rw [Inventory.sell_product, h]
  · rw [Inventory.restock_product, h]

/-- C7 witness: the id `"Z9"` is absent from the sample store; all three
operations fail with `ProductNotFound` and leave it unchanged. -/
theorem claim_c7_absent_id_witness :
    Inventory.remove_product sampleInventory "Z9" =
        (sampleInventory, some PyError.productNotFound) ∧
      Inventory.sell_product sampleInventory "Z9" 1 =
        (sampleInventory, some PyError.productNotFound) ∧
      Inventory.restock_product sampleInventory "Z9" 1 =
        (sampleInventory, some PyError.productNotFound) :=
  claim_c7_absent_id sampleInventory "Z9" 1 (by decide)

/-- C2: for any store satisfying the dict invariant whose grocery dates are
representable (as every store built through the `Grocery` constructor is),
`save_to_file` followed by `load_from_file` into a fresh store reproduces the
store exactly: same ids, same fields, same variants (even the same order). -/
theorem claim_c2_save_load_roundtrip (inv : Inventory) (hwf : inv.Wf)
    (hd : inv.ValidDates) :
    Inventory.load_from_file ⟨[]⟩ inv.save_to_file = (inv, none) := by
  rw [Inventory.load_from_file, Inventory.save_to_file]
  rw [load_loop_map_to_dict inv.products [] hd]
  rw [foldl_dictInsert_append inv.products [] hwf.1 (by simpa using hwf.2)]
  rfl

/-- C2 witness: the sample store with one product of each variant round-trips
exactly. -/
theorem claim_c2_save_load_roundtrip_witness :
    Inventory.load_from_file ⟨[]⟩ sampleInventory.save_to_file =
      (sampleInventory, none) :=
  claim_c2_save_load_roundtrip sampleInventory (by decide) (by decide)

/-- C8: under the dict invariant, the expiry sweep removes exactly the grocery
entries whose expiry date is strictly before `today` and leaves every other
entry (electronics, clothing, unexpired groceries) untouched, in order. -/
theorem claim_c8_expiry_sweep (inv : Inventory) (today : Date)
    (hwf : inv.Wf) :
    (inv.remove_expired_products today).products =
      inv.products.filter (fun kp => !(kp.2.is_expired_grocery today)) := by
  rw [Inventory.remove_expired_products]
  rw [foldl_dictDel_filter _ _ hwf.2]
  apply List.filter_congr
  intro kp hkp
  congr 1
  by_cases hexp : kp.2.is_expired_grocery today = true
  · rw [hexp]
    apply List.elem_iff.mpr
    exact List.mem_map_of_mem Prod.fst (List.mem_filter.mpr ⟨hkp, hexp⟩)
  · rw [Bool.eq_false_iff.mpr hexp]
    rw [← Bool.not_eq_true]
    intro hc
    obtain ⟨kq, hkq, hkeq⟩ := List.mem_map.mp (List.elem_iff.mp hc)
    obtain ⟨hkq2, hkq3⟩ := List.mem_filter.mp hkq
    have : kq = kp := key_unique inv.products hwf.2 kq kp hkq2 hkp hkeq
    exact hexp (this ▸ hkq3)

/-- C8 witness: sweeping the sample store on 2024-04-01 removes exactly the
expired milk. -/
theorem claim_c8_expiry_sweep_witness :
    (sampleInventory.remove_expired_products ⟨2024, 4, 1⟩).products =
      sampleInventory.products.filter
        (fun kp => !(kp.2.is_expired_grocery ⟨2024, 4, 1⟩)) :=
  claim_c8_expiry_sweep sampleInventory ⟨2024, 4, 1⟩ (by decide)

/-- C9: every store operation — `add_product`, `remove_product`,
`sell_product`, `restock_product`, `remove_expired_products` and
`load_from_file` — preserves the dict invariant: each key equals the id
stored inside its product, and ids are unique across the store. -/
theorem claim_c9_invariant_preservation (inv : Inventory) (hwf : inv.Wf) :
    (∀ p, ((inv.add_product p).1).Wf) ∧
      (∀ pid, ((inv.remove_product pid).1).Wf) ∧
      (∀ pid q, ((inv.sell_product pid q).1).Wf) ∧
      (∀ pid q, ((inv.restock_product pid q).1).Wf) ∧
      (∀ today, (inv.remove_expired_products today).Wf) ∧
      (∀ data, ((inv.load_from_file data).1).Wf) := by
  refine ⟨?_, ?_, ?_, ?_, ?_, ?_⟩
  · intro p
    rw [Inventory.add_product]
    split
    · exact hwf
    · exact wf_dictInsert inv.products p.product_id p hwf.1 hwf.2 rfl
  · intro pid
    rw [Inventory.remove_product]
    split
    · exact hwf
    · exact wf_of_sublist inv.products _ (dictDel_sublist inv.products pid)
        hwf.1 hwf.2
  · intro pid q
    rw [Inventory.sell_product]
    cases hg : dictGet inv.products pid with
    | none => exact hwf
    | some p =>
      dsimp only
      have hpid : pid = p.product_id := hwf.1 (pid, p) (dictGet_mem _ _ _ hg)
      cases hs : p.sell q with
      | mk p2 err =>
        cases err with
        | none =>
          dsimp only
          have hid2 : p2.product_id = p.product_id := by
            rw [Product.sell] at hs
            split at hs
            · simp at hs
            · rw [(Prod.mk.injEq _ _ _ _).mp hs |>.1.symm]
              simp
          exact wf_dictInsert inv.products pid p2 hwf.1 hwf.2
            (by rw [hid2, hpid])
        | some e => exact hwf
  · intro pid q
    rw [Inventory.restock_product]
    cases hg : dictGet inv.products pid with
    | none => exact hwf
    | some p =>
      dsimp only
      have hpid : pid = p.product_id := hwf.1 (pid, p) (dictGet_mem _ _ _ hg)
      exact wf_dictInsert inv.products pid (p.restock q) hwf.1 hwf.2
        (by rw [Product.product_id_restock, ← hpid])
  · intro today
    rw [Inventory.remove_expired_products]
    exact wf_of_sublist inv.products _ (foldl_dictDel_sublist _ _) hwf.1 hwf.2
  · intro data
    rw [Inventory.load_from_file]
    exact load_loop_wf data [] (by simp) (by simp)

/-- C9 witness: adding a fresh clothing product to the sample store keeps the
invariant. -/
theorem claim_c9_invariant_preservation_witness :
    ((sampleInventory.add_product
        (Product.clothing "C2" "Coat" 80 3 "L" "Wool")).1).Wf :=
  (claim_c9_invariant_preservation sampleInventory (by decide)).1
    (Product.clothing "C2" "Coat" 80 3 "L" "Wool")

/-- C10: loading a file whose records all deserialize but in which the last
two records share a product id succeeds with no error (in particular no
`DuplicateProductID`), the store maps that id to the later record's product,
and the store holds strictly fewer products than the file holds records. -/
theorem claim_c10_load_duplicate_ids (inv : Inventory)
    (pre : List RawRecord) (r1 r2 : RawRecord) (p1 p2 : Product)
    (hpre : ∀ r ∈ pre, ∃ p, parse_record r = .ok p)
    (h1 : parse_record r1 = .ok p1) (h2 : parse_record r2 = .ok p2)
    (hid : p1.product_id = p2.product_id) :
    (inv.load_from_file (pre ++ [r1, r2])).2 = none ∧
      dictGet (inv.load_from_file (pre ++ [r1, r2])).1.products
          p2.product_id = some p2 ∧
      (inv.load_from_file (pre ++ [r1, r2])).1.products.length <
        (pre ++ [r1, r2]).length := by
  rw [Inventory.load_from_file]
  rw [load_loop_append [] pre [r1, r2] hpre]
  simp only [Inventory.load_loop, h1, h2]
  refine ⟨trivial, dictGet_dictInsert_self _ _ _, ?_⟩
  set acc := (Inventory.load_loop [] pre).1 with hacc
  have hmem : p2.product_id ∈ (dictInsert acc p1.product_id p1).map Prod.fst := by
    apply mem_keys_of_dictGet_ne_none
    rw [← hid, dictGet_dictInsert_self]
    simp
  rw [dictInsert_length, if_pos hmem]
  have hlen1 : (dictInsert acc p1.product_id p1).length ≤ acc.length + 1 := by
    rw [dictInsert_length]
    split <;> omega
  have hlen0 : acc.length ≤ pre.length := by
    have := load_loop_length pre []
    simpa using this
  simp only [List.length_append, List.length_cons, List.length_nil]
  omega

/-- C10 witness: a two-record file both of whose records carry id `"E1"`
loads without error into a one-product store holding the second record's
product. -/
theorem claim_c10_load_duplicate_ids_witness :
    (Inventory.load_from_file ⟨[]⟩
        [Electronics.to_dict "E1" "TV" 100 5 "Acme" 2,
         Electronics.to_dict "E1" "Radio" 30 9 "Zenith" 1]).2 = none ∧
      dictGet (Inventory.load_from_file ⟨[]⟩
          [Electronics.to_dict "E1" "TV" 100 5 "Acme" 2,
           Electronics.to_dict "E1" "Radio" 30 9 "Zenith" 1]).1.products
          (Product.electronics "E1" "Radio" 30 9 "Zenith" 1).product_id =
        some (Product.electronics "E1" "Radio" 30 9 "Zenith" 1) ∧
      (Inventory.load_from_file ⟨[]⟩
          [Electronics.to_dict "E1" "TV" 100 5 "Acme" 2,
           Electronics.to_dict "E1" "Radio" 30 9 "Zenith" 1]).1.products.length <
        ([Electronics.to_dict "E1" "TV" 100 5 "Acme" 2,
          Electronics.to_dict "E1" "Radio" 30 9 "Zenith" 1] : List RawRecord).length :=
  claim_c10_load_duplicate_ids ⟨[]⟩ []
    (Electronics.to_dict "E1" "TV" 100 5 "Acme" 2)
    (Electronics.to_dict "E1" "Radio" 30 9 "Zenith" 1)
    (Product.electronics "E1" "TV" 100 5 "Acme" 2)
    (Product.electronics "E1" "Radio" 30 9 "Zenith" 1)
    (by intro r hr; exact absurd hr (List.not_mem_nil r))
    rfl rfl rfl

/-- C3 counterexample: the claim says a load that hits an unrecognized
discriminator leaves the store empty.  Loading a file whose first record is a
valid electronics record and whose second has type `"Furniture"` fails with
`InvalidProductData` but leaves the store holding the first product — partially
populated, not empty. -/
theorem claim_c3_counterexample :
    (Inventory.load_from_file ⟨[]⟩
        [Electronics.to_dict "E1" "TV" 100 5 "Acme" 2, furnitureRecord]).2 =
        some PyError.invalidProductData ∧
      (Inventory.load_from_file ⟨[]⟩
          [Electronics.to_dict "E1" "TV" 100 5 "Acme" 2,
            furnitureRecord]).1.products =
        [("E1", Product.electronics "E1" "TV" 100 5 "Acme" 2)] ∧
      [("E1", Product.electronics "E1" "TV" 100 5 "Acme" 2)] ≠
        ([] : List (String × Product)) := by
  refine ⟨rfl, rfl, by simp⟩

/-- C3 (amended): for every initial store and record sequence
`good ++ bad :: rest` in which every record of `good` deserializes and `bad`
has a missing or unrecognized discriminator, `load_from_file` fails with
`InvalidProductData` and leaves the store cleared of its pre-load contents
but holding exactly the products parsed from `good` — partially populated,
and empty only when the failing record comes first. -/
theorem claim_c3_load_failure_partial (inv : Inventory)
    (good : List RawRecord) (bad : RawRecord) (rest : List RawRecord)
    (hgood : ∀ r ∈ good, ∃ p, parse_record r = .ok p)
    (hbad : product_map bad.type = none) :
    inv.load_from_file (good ++ bad :: rest) =
      (⟨(Inventory.load_loop [] good).1⟩, some PyError.invalidProductData) := by
  rw [Inventory.load_from_file, load_loop_append [] good (bad :: rest) hgood]
  have hb : parse_record bad = .error .invalidProductData := by
    rw [parse_record, hbad]
  simp only [Inventory.load_loop, hb]

/-- C3 witness: concrete instance of the amended claim with one good record
before the furniture record. -/
theorem claim_c3_load_failure_partial_witness :
    Inventory.load_from_file ⟨[]⟩
        [Electronics.to_dict "E2" "Radio" 30 9 "Zenith" 1, furnitureRecord] =
      (⟨(Inventory.load_loop []
            [Electronics.to_dict "E2" "Radio" 30 9 "Zenith" 1]).1⟩,
        some PyError.invalidProductData) :=
  claim_c3_load_failure_partial ⟨[]⟩
    [Electronics.to_dict "E2" "Radio" 30 9 "Zenith" 1] furnitureRecord []
    (by intro r hr; rw [List.mem_singleton] at hr; subst hr; exact ⟨_, rfl⟩)
    rfl

/-- C4 counterexample: the claim says every record with an unparseable expiry
date fails with `InvalidProductData`; in the code the `Grocery` constructor's
`strptime` raises `ValueError` instead (and a missing field raises
`KeyError`), neither of which is `InvalidProductDataError`. -/
theorem claim_c4_counterexample :
    parse_record badDateRecord = .error PyError.valueError ∧
      parse_record missingFieldRecord = .error (PyError.keyError "brand") ∧
      PyError.valueError ≠ PyError.invalidProductData ∧
      PyError.keyError "brand" ≠ PyError.invalidProductData := by
  refine ⟨rfl, rfl, by simp, by simp⟩

/-- C4 (amended): deserialization of a record fails with `InvalidProductData`
exactly when its discriminator is missing or unrecognized; every other
failure is a `KeyError` (missing field) or a `ValueError` (unparseable expiry
date), never any other error kind. -/
theorem claim_c4_error_taxonomy (item : RawRecord) :
    (parse_record item = .error PyError.invalidProductData ↔
        product_map item.type = none) ∧
      (∀ e, parse_record item = .error e →
        e = PyError.invalidProductData ∨ (∃ k, e = PyError.keyError k) ∨
          e = PyError.valueError) := by
  rcases hmap : product_map item.type with _ | cls
  · constructor
    · rw [parse_record, hmap]
      simp
    · intro e he
      rw [parse_record, hmap] at he
      simp only [Except.error.injEq] at he
      exact Or.inl he.symm
  · have hcls : cls = Electronics.from_dict ∨ cls = Grocery.from_dict ∨
        cls = Clothing.from_dict := by
      rw [product_map.eq_def] at hmap
      split at hmap <;> simp_all
    have hpr : parse_record item = cls item := by
      rw [parse_record, hmap]
    constructor
    · rw [hpr]
      constructor
      · intro he
        exfalso
        rcases hcls with hc | hc | hc <;> subst hc
        · obtain ⟨k, hk⟩ := electronics_from_dict_errors item _ he
          exact PyError.noConfusion hk
        · rcases grocery_from_dict_errors item _ he with ⟨k, hk⟩ | hk <;>
            exact PyError.noConfusion hk
        · obtain ⟨k, hk⟩ := clothing_from_dict_errors item _ he
          exact PyError.noConfusion hk
      · intro he
        exact Option.noConfusion he
    · intro e he
      rw [hpr] at he
      rcases hcls with hc | hc | hc <;> subst hc
      · exact Or.inr (Or.inl (electronics_from_dict_errors item e he))
      · rcases grocery_from_dict_errors item e he with hk | hk
        · exact Or.inr (Or.inl hk)
        · exact Or.inr (Or.inr hk)
      · exact Or.inr (Or.inl (clothing_from_dict_errors item e he))

/-- C4 witness: at the bad-date record, the taxonomy places the failure among
`KeyError`/`ValueError`/`InvalidProductData`. -/
theorem claim_c4_error_taxonomy_witness :
    PyError.valueError = PyError.invalidProductData ∨
      (∃ k, PyError.valueError = PyError.keyError k) ∨
      PyError.valueError = PyError.valueError :=
  (claim_c4_error_taxonomy badDateRecord).2 PyError.valueError rfl
